import Mathlib

/-!
# Verification of the TinyPNG batch-compression engine

Shallow embedding of `src/index.js` (CLI tool) and `src/unnamed/part_001`
(VS Code plugin variant) of the xiaofeiwuuu/TinyPNG repository, together
with proofs about the bounded-concurrency retry-queue engine described in
the specification.

Paths are modelled as lists of segments (`List String`), relative to an
abstract filesystem root; `path.join`, `path.relative`, `path.basename`,
`path.dirname` and `path.extname` are embedded with Node.js semantics on
that representation.  The filesystem content is modelled as a partial map
from paths to abstract contents (`Store`).  The cooperative concurrency of
the Node.js event loop is modelled by a small-step scheduler over a pool
state: a schedule (a list of worker indices) decides which logical worker
runs its next synchronous segment.
-/

namespace TinyPNG

/-! ## Path model (Node.js `path` module on segment lists) -/

/-- `path.basename` on a segment-list path: the last segment. -/
def basenameSeg (p : List String) : String := p.getLastD ""

/-- `path.dirname` on a segment-list path: drop the last segment. -/
def dirnameSeg (p : List String) : List String := p.dropLast

/-- Strip the longest common prefix of two segment lists, returning the
remainders (helper for `path.relative`). -/
def dropCommon : List String → List String → List String × List String
  | a :: as, b :: bs => if a = b then dropCommon as bs else (a :: as, b :: bs)
  | as, bs => (as, bs)

/-- `path.relative(from, to)` on segment lists: climb out of the
non-shared part of `from` with `..` segments, then descend into the
non-shared part of `to`. -/
def pathRelative (f t : List String) : List String :=
  let r := dropCommon f t
  List.replicate r.1.length ".." ++ r.2

/-- One step of `path.join` normalisation: a `..` segment pops the last
segment of the accumulated path, any other segment is appended. -/
def joinSeg (acc : List String) (seg : String) : List String :=
  if seg = ".." then acc.dropLast else acc ++ [seg]

/-- `path.join(p, q...)` on segment lists: fold the segments of `q` onto
the (already absolute, normalised) path `p`, resolving `..`. -/
def pathJoin (p q : List String) : List String := q.foldl joinSeg p

/-- `CONFIG.SOURCE_ROOT = path.join(__dirname, 'static')` (index.js line 52),
with `base` standing for `__dirname`. -/
def sourceRootC (base : List String) : List String := base ++ ["static"]

/-- `CONFIG.OUTPUT_ROOT = path.join(__dirname, 'compressed_results')`
(index.js line 53). -/
def outputRootC (base : List String) : List String := base ++ ["compressed_results"]

/-- `CONFIG.SAVE_FAILED_TO = path.join(__dirname, 'failed_images')`
(index.js line 63). -/
def failedRootC (base : List String) : List String := base ++ ["failed_images"]

/-! ## File-name model (`path.extname`, case folding, supported formats) -/

/-- `path.extname` on a file name (Node.js semantics): the suffix starting
at the last `.`, except that a name without a dot, or whose only dot is
its first character, has extension `""`. -/
def extname (s : String) : String :=
  let cs := s.toList
  let tl := cs.reverse.takeWhile (fun c => c != '.')
  if cs.length ≤ tl.length + 1 then "" else String.mk ('.' :: tl.reverse)

/-- JavaScript `String.prototype.toLowerCase` restricted to the ASCII
range used by the extension lists. -/
def lowerStr (s : String) : String := String.mk (s.toList.map Char.toLower)

/-- JavaScript `name.startsWith('.')` (hidden-name test): true exactly
when the first character is `.`. -/
def startsWithDot (s : String) : Bool := s.toList.head? == some '.'

/-- `CONFIG.SUPPORTED_FORMATS` (index.js line 54); identical to the
plugin's `SUPPORTED_FORMATS` constant (part_001 line 40). -/
def supportedFormatsCli : List String := [".jpg", ".jpeg", ".png", ".webp"]

/-- The file-name test of normal-pass discovery (index.js lines 125-126):
`CONFIG.SUPPORTED_FORMATS.includes(path.extname(file).toLowerCase())`. -/
def isSupportedDiscovery (file : String) : Bool :=
  supportedFormatsCli.contains (lowerStr (extname file))

/-- The file-name test of recovery-mode listing (index.js lines 498-499):
`CONFIG.SUPPORTED_FORMATS.includes(path.extname(f).toLowerCase())`. -/
def isSupportedRetry (f : String) : Bool :=
  supportedFormatsCli.contains (lowerStr (extname f))

/-! ## Filesystem content model -/

/-- Filesystem contents: a partial map from segment-list paths to abstract
file contents (sizes/bytes abstracted to `Nat`). -/
def Store : Type := List String → Option Nat

/-- `fs.writeFileSync(p, v)`. -/
def storeWrite (st : Store) (p : List String) (v : Nat) : Store :=
  fun q => if q = p then some v else st q

/-- `fs.unlinkSync(p)`. -/
def storeDelete (st : Store) (p : List String) : Store :=
  fun q => if q = p then none else st q

/-- `fs.copyFileSync(src, dst)` as used in the quarantine commit loop
(index.js lines 436-437): a missing source makes `copyFileSync` throw,
which the surrounding `try`/`catch` (lines 441-443) turns into a logged
no-op, so it is modelled as the identity in that case. -/
def storeCopy (st : Store) (src dst : List String) : Store :=
  match st src with
  | none => st
  | some v => storeWrite st dst v

/-! ## Output-path computation (index.js lines 207-216)

With `CONFIG.PRESERVE_DIR_STRUCTURE = true` (the configured value,
index.js line 60), `compressImageWorker` computes
`outputPath = path.join(outputRoot, path.relative(CONFIG.SOURCE_ROOT,
path.dirname(filePath)), fileName)`. -/

/-- The output location `compressImageWorker` writes the compressed
artifact to (index.js lines 209-212, structure-preserving branch). -/
def outputPathFor (sourceRoot outputRoot filePath : List String) : List String :=
  pathJoin outputRoot
    (pathRelative sourceRoot (dirnameSeg filePath) ++ [basenameSeg filePath])

/-- The net filesystem effect of one recovery-mode success on item `fp`:
`compressImageWorker` writes the downloaded artifact at `outputPathFor`
(index.js line 227), then `processWorker` with `isRetry = true` deletes
`fp` from the holding area (index.js line 355). -/
def retrySuccessEffect (base : List String) (st : Store) (fp : List String)
    (c : Nat) : Store :=
  storeDelete
    (storeWrite st (outputPathFor (sourceRootC base) (outputRootC base) fp) c) fp

/-- The filesystem effect of one normal-pass success on item `fp`:
the artifact is written at `outputPathFor` (index.js line 227). -/
def normalSuccessEffect (base : List String) (st : Store) (fp : List String)
    (c : Nat) : Store :=
  storeWrite st (outputPathFor (sourceRootC base) (outputRootC base) fp) c

/-! ## Quarantine commit (index.js lines 431-446)

At the end of a normal pass, for each record in `results.failed` the
original file is copied to
`path.join(CONFIG.SAVE_FAILED_TO, path.basename(f.filePath))`,
unconditionally (`copyFileSync` overwrites an existing destination). -/

/-- The commit loop of `compressFolder` (index.js lines 434-444). -/
def commitFailed (failedRoot : List String) (st : Store)
    (failedPaths : List (List String)) : Store :=
  failedPaths.foldl (fun acc fp => storeCopy acc fp (failedRoot ++ [basenameSeg fp])) st

/-! ## Directory discovery (`getAllImageFiles`, index.js lines 106-132)

A directory tree is a rose tree of named files and directories; `scan`
is the embedding of `getAllImageFiles(dir)` where `p` is the path of the
parent of the node being visited.  The hidden-directory check
(`CONFIG.SKIP_HIDDEN_DIRS && path.basename(dir).startsWith('.')`,
line 110) and the holding-area check
(`path.resolve(dir) === path.resolve(CONFIG.SAVE_FAILED_TO)`, line 113)
apply to directory nodes; the extension check (lines 125-126) applies to
file entries of the enclosing loop. -/

inductive FS where
  | file : String → FS
  | dir : String → List FS → FS

mutual
/-- `getAllImageFiles` on one tree node whose parent directory is `p`. -/
def scan (skipHidden : Bool) (failedPath : List String) (p : List String) :
    FS → List (List String)
  | .file n => if isSupportedDiscovery n then [p ++ [n]] else []
  | .dir n children =>
      if skipHidden && startsWithDot n then []
      else if p ++ [n] = failedPath then []
      else scanList skipHidden failedPath (p ++ [n]) children

/-- The `for (const file of files)` loop body of `getAllImageFiles`
(index.js lines 116-130), mapped over a directory's children. -/
def scanList (skipHidden : Bool) (failedPath : List String) (p : List String) :
    List FS → List (List String)
  | [] => []
  | c :: cs => scan skipHidden failedPath p c ++ scanList skipHidden failedPath p cs
end

/-- The discovery call of `compressFolder`
(`getAllImageFiles(CONFIG.SOURCE_ROOT)`, index.js line 409), with the
configured values `SKIP_HIDDEN_DIRS = true` and
`SAVE_FAILED_TO = __dirname/failed_images`; `children` are the entries of
the source-root directory. -/
def scanCli (base : List String) (children : List FS) : List (List String) :=
  scan true (failedRootC base) base (FS.dir "static" children)

/-! ## The plugin's discovery (`getAllImageFiles`, part_001 lines 80-109)

The VS Code plugin variant always skips hidden directories, excludes the
output directory instead of a holding directory (it has none), and wraps
`readdirSync` in a `try`/`catch` whose failure case cannot arise in the
tree model. -/

/-- The plugin's file-name test (part_001 lines 98-99), the same test as
the CLI's. -/
def isSupportedPlugin (file : String) : Bool :=
  supportedFormatsCli.contains (lowerStr (extname file))

mutual
/-- Plugin `getAllImageFiles(dir, outputDir)` on one node with parent
path `p`; the `outputDir &&` truthiness guard makes the empty output
path disable the exclusion. -/
def scanP (outputDir : List String) (p : List String) : FS → List (List String)
  | .file n => if isSupportedPlugin n then [p ++ [n]] else []
  | .dir n children =>
      if startsWithDot n then []
      else if outputDir ≠ [] ∧ p ++ [n] = outputDir then []
      else scanPList outputDir (p ++ [n]) children

/-- The loop body of the plugin's `getAllImageFiles` (part_001 lines
89-103), mapped over a directory's children. -/
def scanPList (outputDir : List String) (p : List String) : List FS → List (List String)
  | [] => []
  | c :: cs => scanP outputDir p c ++ scanPList outputDir p cs
end

/-! ## Worker pool model (processWorker / compressFolder, index.js 332-383, 423-428)

Node.js runs the workers as cooperatively scheduled async tasks: between
two `await` points a worker executes synchronously and atomically.  The
relevant synchronous segments of `processWorker` are
(a) the `files.length > 0` check plus `files.shift()` (lines 334-336) and
(b) recording the outcome into the shared `results` object together with
the success-side filesystem effect (lines 343-375).  A pool state holds
the shared queue, the per-worker control points, the shared result
accumulator and the filesystem; a schedule (list of worker indices)
chooses which worker runs its next segment.  `Promise.all` (line 428)
resolves once every spawned worker has exited, i.e. at a state whose
workers are all `done`. -/

/-- Control point of one logical `processWorker` task: about to test the
queue, holding a dequeued item while its compression is in flight, or
exited. -/
inductive WStatus (α : Type) where
  | ready : WStatus α
  | working : α → WStatus α
  | done : WStatus α
deriving DecidableEq

/-- Shared state of one pass: the mutable `files` queue, the logical
workers, the `results.success` / `results.failed` accumulators and the
filesystem. -/
structure PassState (α : Type) where
  queue : List α
  workers : List (WStatus α)
  success : List α
  failed : List α
  store : Store

/-- One scheduled synchronous segment of worker `i`.  `adapter a` is the
terminal outcome `compressImageWorker` reports for item `a` (`some c`:
success with artifact content `c`; `none`: exhausted failure), and `eff`
is the success-side filesystem effect (artifact write, plus the
holding-area delete in retry mode). -/
def step {α : Type} (adapter : α → Option Nat) (eff : Store → α → Nat → Store)
    (s : PassState α) (i : Nat) : PassState α :=
  match s.workers[i]? with
  | none => s
  | some .done => s
  | some .ready =>
      match s.queue with
      | [] => { s with workers := s.workers.set i .done }
      | a :: rest => { s with queue := rest, workers := s.workers.set i (.working a) }
  | some (.working a) =>
      match adapter a with
      | some c => { s with workers := s.workers.set i .ready,
                           success := s.success ++ [a], store := eff s.store a c }
      | none => { s with workers := s.workers.set i .ready,
                         failed := s.failed ++ [a] }

/-- Run a pass under a schedule of worker indices. -/
def runPass {α : Type} (adapter : α → Option Nat) (eff : Store → α → Nat → Store)
    (s : PassState α) (sched : List Nat) : PassState α :=
  sched.foldl (step adapter eff) s

/-- The pool construction of `compressFolder` / `retryFailedFolder`
(index.js lines 423-427 and 516-520): `Math.min(items.length,
CONFIG.MAX_CONCURRENT)` workers are spawned against one fresh queue and
one fresh result accumulator. -/
def initPass {α : Type} (items : List α) (maxConcurrent : Nat) (st : Store) :
    PassState α :=
  { queue := items,
    workers := List.replicate (Nat.min items.length maxConcurrent) .ready,
    success := [], failed := [], store := st }

/-- The pool has completed (`Promise.all` resolved): every spawned worker
has exited. -/
def allDone {α : Type} (ws : List (WStatus α)) : Prop := ∀ w ∈ ws, w = WStatus.done

instance allDoneDecidable {α : Type} [DecidableEq α] (ws : List (WStatus α)) :
    Decidable (allDone ws) :=
  inferInstanceAs (Decidable (∀ w ∈ ws, w = WStatus.done))

/-- The item a worker currently holds, as a multiset. -/
def itemsOfM {α : Type} : WStatus α → Multiset α
  | .working a => {a}
  | _ => 0

/-- All items currently held by in-flight workers. -/
def heldM {α : Type} (ws : List (WStatus α)) : Multiset α := (ws.map itemsOfM).sum

/-! ## Retry loop (`compressImageWorker`, index.js lines 161-260)

The `while (retryCount <= CONFIG.MAX_RETRIES)` loop performs one
adapter invocation per iteration; on an exception it increments
`retryCount` and returns a failure once `retryCount > CONFIG.MAX_RETRIES`,
so the loop always returns within `maxRetries + 1` iterations.  It is
embedded with the remaining-attempt count `fuel = maxRetries + 1 -
retryCount` as the recursion measure; the `fuel = 0` equation is
unreachable from `compressImageWorker` (the JS loop is entered with
`retryCount = 0 ≤ MAX_RETRIES`). -/

/-- The shape of a JS exception as classified by lines 249-251:
an HTTP error response, a request that got no response, or anything
else. -/
inductive JsError where
  | httpResponse (status : Nat) (errField : Option String)
  | noResponse
  | other (msg : Option String)
deriving DecidableEq

/-- `errorDetails` computation (index.js lines 248-251). -/
def classifyError : JsError → String
  | .httpResponse s e => "HTTP " ++ toString s ++ ": " ++ e.getD "Unknown error"
  | .noResponse => "No response from server"
  | .other m => m.getD "Unknown error"

/-- Terminal result of `compressImageWorker`: the success record
(lines 233-241) or the failure record (line 253). -/
inductive CompressionResult (σ : Type) where
  | ok (g : σ)
  | failed (error : String)
deriving DecidableEq

/-- The retry loop from attempt index `k` with `fuel` attempts left,
returning the terminal result paired with the number of adapter
invocations actually performed.  `att k` is the outcome of the `try`
block of attempt `k` (one TransformAdapter invocation). -/
def retryGo {σ : Type} (att : Nat → Except JsError σ) (k : Nat) :
    Nat → CompressionResult σ × Nat
  | 0 => (.failed "", 0)
  | 1 =>
      match att k with
      | .ok g => (.ok g, 1)
      | .error e => (.failed (classifyError e), 1)
  | n + 2 =>
      match att k with
      | .ok g => (.ok g, 1)
      | .error _ =>
          let p := retryGo att (k + 1) (n + 1)
          (p.1, p.2 + 1)

/-- `compressImageWorker` with retry budget `maxRetries`
(`CONFIG.MAX_RETRIES`), instrumented with its adapter-invocation
count. -/
def compressImageWorker {σ : Type} (att : Nat → Except JsError σ)
    (maxRetries : Nat) : CompressionResult σ × Nat :=
  retryGo att 0 (maxRetries + 1)

/-! ## Entry operations (compressFolder / retryFailedFolder / main) -/

/-- `compressFolder` (index.js lines 402-446, result-relevant part):
when the source root is absent (`fs.existsSync` false, line 406) it
reports the setup error and returns without building any result set;
otherwise it discovers the work items, runs the pool against the output
root, and commits every failure into the holding area.  The progress
bar, statistics printing and unsupported-file copying have no effect on
the result set or the modelled stores. -/
def compressFolderCli (base : List String) (src : Option (List FS))
    (maxConcurrent : Nat) (adapter : List String → Option Nat) (st : Store)
    (sched : List Nat) : Option (PassState (List String)) :=
  match src with
  | none => none
  | some children =>
      let final := runPass adapter (normalSuccessEffect base)
        (initPass (scanCli base children) maxConcurrent st) sched
      some { final with store := commitFailed (failedRootC base) final.store final.failed }

/-- The plugin's `compressFolder(sourceDir)` (part_001 lines 334-410) with
`sourceDir = parent ++ [rootName]`: a missing source directory throws
`源目录不存在: ...` (line 339) before anything else runs; otherwise the
output directory is the sibling `rootName + '_compressed'`, discovery
excludes it, and a pool of `min(itemCount, maxConcurrent)` workers runs.
(The empty-discovery early return, part_001 lines 350-356, yields the
same empty result set as running the pool on an empty queue.) -/
def compressFolderPlugin (parent : List String) (rootName : String)
    (src : Option (List FS)) (maxConcurrent : Nat)
    (adapter : List String → Option Nat) (st : Store) (sched : List Nat) :
    Except String (PassState (List String)) :=
  match src with
  | none =>
      Except.error ("源目录不存在: " ++ String.intercalate "/" (parent ++ [rootName]))
  | some children =>
      let sourceDir := parent ++ [rootName]
      let outputDir := parent ++ [rootName ++ "_compressed"]
      let allFiles := scanP outputDir parent (FS.dir rootName children)
      Except.ok (runPass adapter
        (fun st' fp c => storeWrite st' (outputPathFor sourceDir outputDir fp) c)
        (initPass allFiles maxConcurrent st) sched)

/-- Aggregate numbers reported by `retryFailedFolder` (index.js lines
507, 525). -/
structure RetryReport where
  itemCount : Nat
  successCount : Nat
  failedCount : Nat
deriving DecidableEq

/-- `retryFailedFolder` (index.js lines 487-533): `holding` is the
listing of the holding directory (`none`: the directory does not exist,
line 492; `some entries`: its `readdirSync` listing, line 498).  When
the directory is missing or no supported entries remain, it reports zero
items and performs no filesystem action; otherwise it runs a retry-mode
pool over the filtered entries. -/
def retryFailedFolder (base : List String) (holding : Option (List String))
    (maxConcurrent : Nat) (adapter : List String → Option Nat) (st : Store)
    (sched : List Nat) : RetryReport × Store :=
  match holding with
  | none => (⟨0, 0, 0⟩, st)
  | some entries =>
      let failedFiles := (entries.filter (fun f => isSupportedRetry f)).map
        (fun f => failedRootC base ++ [f])
      if failedFiles.length = 0 then (⟨0, 0, 0⟩, st)
      else
        let final := runPass adapter (retrySuccessEffect base)
          (initPass failedFiles maxConcurrent st) sched
        (⟨failedFiles.length, final.success.length, final.failed.length⟩, final.store)

/-- The two kinds of pass the program can run. -/
inductive PassKind where
  | full : PassKind
  | recovery : PassKind
deriving DecidableEq

/-- The pass sequence chosen by the entry point (index.js lines 548-556):
`--retry-failed` runs only the recovery pass, otherwise the full pass is
followed, in the same invocation, by a recovery pass. -/
def mainSequence (retryOnly : Bool) : List PassKind :=
  if retryOnly then [PassKind.recovery] else [PassKind.full, PassKind.recovery]

/-- The observable world the CLI operates on: the source tree (if it
exists), the holding-directory listing as seen at recovery time (if the
directory exists), and the filesystem contents. -/
structure CliWorld where
  sourceTree : Option (List FS)
  holdingEntries : Option (List String)
  store : Store

/-- The entry point (index.js lines 548-556) over a `CliWorld`: in
retry-only mode, only `retryFailedFolder` runs; otherwise
`compressFolder` runs first and `retryFailedFolder` then runs on the
store it left behind. -/
def runMainCli (retryOnly : Bool) (base : List String) (w : CliWorld)
    (maxConcurrent : Nat) (adapter : List String → Option Nat)
    (schedFull schedRetry : List Nat) :
    Option (PassState (List String)) × (RetryReport × Store) :=
  if retryOnly then
    (none, retryFailedFolder base w.holdingEntries maxConcurrent adapter w.store schedRetry)
  else
    match compressFolderCli base w.sourceTree maxConcurrent adapter w.store schedFull with
    | none =>
        (none, retryFailedFolder base w.holdingEntries maxConcurrent adapter w.store schedRetry)
    | some s =>
        (some s, retryFailedFolder base w.holdingEntries maxConcurrent adapter s.store schedRetry)

/-! ## Concrete instances used by witnesses -/

/-- The empty filesystem. -/
def stEmpty : Store := fun _ => none

/-- Adapter that always fails with a no-response error. -/
def attAllFail : Nat → Except JsError Unit := fun _ => Except.error JsError.noResponse

/-- Pass adapter succeeding exactly on item `0`. -/
def adWitness : Nat → Option Nat := fun n => if n = 0 then some 1 else none

/-- Pass adapter that always fails. -/
def adNone : List String → Option Nat := fun _ => none

/-- Success effect that leaves the filesystem unchanged. -/
def effId : Store → Nat → Nat → Store := fun st _ _ => st

/-- Filesystem for the quarantine-commit counterexample: the source file
`static/a.png` (content 5) and a stale holding-area copy
`failed_images/a.png` (content 7). -/
def stC4 : Store := fun q =>
  if q = ["static", "a.png"] then some 5
  else if q = ["failed_images", "a.png"] then some 7 else none

/-- Filesystem for the last-failure-wins witness: two source files
sharing the base name `a.png`. -/
def stC4w : Store := fun q =>
  if q = ["static", "a.png"] then some 5
  else if q = ["static", "sub", "a.png"] then some 9 else none

/-- The two failure records of the last-failure-wins witness, in result
order. -/
def itemsC4w : List (List String) := [["static", "a.png"], ["static", "sub", "a.png"]]

/-- A world whose source tree exists, for the retry-only witness. -/
def worldWithSource : CliWorld := ⟨some [FS.file "x.png"], some ["y.png"], stEmpty⟩

/-- The same world with the source tree removed. -/
def worldNoSource : CliWorld := ⟨none, some ["y.png"], stEmpty⟩

/-! ### Basic path lemmas -/

theorem append_left_cancel_iff (b u v : List String) : b ++ u = b ++ v ↔ u = v := by
  induction b with
  | nil => simp
  | cons x xs ih => simp [ih]

theorem prefix_append_left_iff (b u v : List String) : b ++ u <+: b ++ v ↔ u <+: v := by
  constructor
  · rintro ⟨t, ht⟩
    rw [List.append_assoc] at ht
    exact ⟨t, (append_left_cancel_iff b _ _).mp ht⟩
  · rintro ⟨t, ht⟩
    exact ⟨t, by rw [List.append_assoc, ht]⟩

theorem dropCommon_append (b : List String) (u v : List String) :
    dropCommon (b ++ u) (b ++ v) = dropCommon u v := by
  induction b with
  | nil => simp
  | cons x xs ih => simpa [dropCommon] using ih

/-- The relative path from the source root to the holding area is
`../failed_images` (they are sibling directories under `__dirname`). -/
theorem pathRelative_source_failed (base : List String) :
    pathRelative (sourceRootC base) (failedRootC base) = ["..", "failed_images"] := by
  unfold pathRelative sourceRootC failedRootC
  rw [dropCommon_append]
  simp [dropCommon]

/-- In recovery mode, the output path computed for a quarantined file
`failed_images/name` is that very file: `path.join` of the output root
with `../failed_images/name` lands back in the holding area.  (`name` is
an entry of a directory listing, so it is never the literal `..`.) -/
theorem outputPathFor_retry (base : List String) (name : String) (hname : name ≠ "..") :
    outputPathFor (sourceRootC base) (outputRootC base) (failedRootC base ++ [name])
      = failedRootC base ++ [name] := by
  unfold outputPathFor
  rw [show dirnameSeg (failedRootC base ++ [name]) = failedRootC base from by
    simp [dirnameSeg]]
  rw [show basenameSeg (failedRootC base ++ [name]) = name from by
    simp [basenameSeg]]
  rw [pathRelative_source_failed]
  unfold pathJoin outputRootC failedRootC
  simp [joinSeg, hname]

mutual
theorem scan_shape (fp p : List String) (t : FS) (r : List String)
    (hr : r ∈ scan true fp p t) :
    ∃ ds fn, r = p ++ ds ++ [fn] ∧ (∀ d ∈ ds, startsWithDot d = false)
      ∧ isSupportedDiscovery fn = true := by
  cases t with
  | file n =>
    simp only [scan] at hr
    split at hr
    · next hsup =>
      simp only [List.mem_singleton] at hr
      exact ⟨[], n, by simp [hr], by simp, hsup⟩
    · simp at hr
  | dir n children =>
    simp only [scan] at hr
    split at hr
    · simp at hr
    · next hhid =>
      split at hr
      · simp at hr
      · obtain ⟨ds, fn, hds, hh, hs⟩ := scanList_shape fp (p ++ [n]) children r hr
        refine ⟨n :: ds, fn, by simp [hds], ?_, hs⟩
        intro d hd
        rcases List.mem_cons.mp hd with rfl | hd
        · simpa using hhid
        · exact hh d hd

theorem scanList_shape (fp p : List String) (ts : List FS) (r : List String)
    (hr : r ∈ scanList true fp p ts) :
    ∃ ds fn, r = p ++ ds ++ [fn] ∧ (∀ d ∈ ds, startsWithDot d = false)
      ∧ isSupportedDiscovery fn = true := by
  cases ts with
  | nil => simp [scanList] at hr
  | cons c cs =>
    simp only [scanList, List.mem_append] at hr
    rcases hr with h | h
    · exact scan_shape fp p c r h
    · exact scanList_shape fp p cs r h
end

/-- C8: every path returned by the discovery call of `compressFolder`
lies under the source root, ends in a file name whose lowercased
extension is a supported format, passes through no hidden directory below
the source root, and lies neither under the configured output root nor
under the holding (failed-files) directory.  The output and holding roots
are siblings of the source root (`__dirname/compressed_results`,
`__dirname/failed_images` vs `__dirname/static`), so no discovered file —
all of which sit under `__dirname/static` — can be under either. -/
theorem discovery_filters_supported_and_excludes_dirs
    (base : List String) (children : List FS) (r : List String)
    (hr : r ∈ scanCli base children) :
    (∃ ds fn, r = sourceRootC base ++ ds ++ [fn]
      ∧ (∀ d ∈ ds, startsWithDot d = false)
      ∧ isSupportedDiscovery fn = true)
    ∧ ¬ outputRootC base <+: r ∧ ¬ failedRootC base <+: r := by
  unfold scanCli scan at hr
  rw [if_neg (by decide), if_neg (by simp [failedRootC, append_left_cancel_iff])] at hr
  obtain ⟨ds, fn, hds, hh, hs⟩ := scanList_shape _ _ children r hr
  refine ⟨⟨ds, fn, hds, hh, hs⟩, ?_, ?_⟩
  · rintro ⟨t, ht⟩
    rw [hds] at ht
    simp only [outputRootC, sourceRootC, List.append_assoc] at ht
    have := (append_left_cancel_iff base _ _).mp ht
    simp at this
  · rintro ⟨t, ht⟩
    rw [hds] at ht
    simp only [failedRootC, sourceRootC, List.append_assoc] at ht
    have := (append_left_cancel_iff base _ _).mp ht
    simp at this

/-- Witness for C8 at a concrete tree: the source root contains a hidden
directory with an image, an unsupported file, a `failed_images`-named
subtree only reachable outside the scan, and one good image. -/
theorem discovery_filters_witness :
    (["static", "pics", "b.PNG"] ∈
        scanCli [] [FS.dir ".git" [FS.file "a.png"], FS.file "notes.txt",
          FS.dir "pics" [FS.file "b.PNG", FS.file "c.svg"]])
    ∧ (¬ outputRootC [] <+: ["static", "pics", "b.PNG"]
        ∧ ¬ failedRootC [] <+: ["static", "pics", "b.PNG"]) :=
  ⟨by decide,
    (discovery_filters_supported_and_excludes_dirs []
      [FS.dir ".git" [FS.file "a.png"], FS.file "notes.txt",
        FS.dir "pics" [FS.file "b.PNG", FS.file "c.svg"]]
      ["static", "pics", "b.PNG"] (by decide)).2⟩

/-- C10: supported-format matching is case-insensitive on the file
extension.  The predicate used by normal-pass discovery (index.js lines
125-126) and the predicate used by recovery-mode listing (index.js lines
498-499) are the same test, a file name passes it exactly when its
Node-`path.extname` extension, lowercased, is `.jpg`, `.jpeg`, `.png` or
`.webp`, and a bare file entry is selected by the discovery loop exactly
when it passes the test.  Concrete instances: `photo.PNG` and `photo.Jpg`
are selected, `photo.gif` is not. -/
theorem supported_format_matching :
    (∀ f, isSupportedRetry f = isSupportedDiscovery f)
    ∧ (∀ f, isSupportedDiscovery f = true ↔
        (lowerStr (extname f) = ".jpg" ∨ lowerStr (extname f) = ".jpeg"
          ∨ lowerStr (extname f) = ".png" ∨ lowerStr (extname f) = ".webp"))
    ∧ (∀ fp p fn, scan true fp p (FS.file fn)
        = if isSupportedDiscovery fn then [p ++ [fn]] else [])
    ∧ isSupportedDiscovery "photo.PNG" = true
    ∧ isSupportedRetry "photo.Jpg" = true
    ∧ isSupportedDiscovery "photo.gif" = false := by
  refine ⟨fun f => rfl, fun f => ?_, fun fp p fn => rfl, by decide, by decide, by decide⟩
  simp [isSupportedDiscovery, supportedFormatsCli]

/-! ### Worker-pool step lemmas -/

theorem step_eq_of_none {α : Type} (ad : α → Option Nat) (eff : Store → α → Nat → Store)
    (s : PassState α) (i : Nat) (h : s.workers[i]? = none) : step ad eff s i = s := by
  unfold step
  rw [h]

theorem step_eq_of_done {α : Type} (ad : α → Option Nat) (eff : Store → α → Nat → Store)
    (s : PassState α) (i : Nat) (h : s.workers[i]? = some .done) : step ad eff s i = s := by
  unfold step
  rw [h]

theorem step_eq_ready_nil {α : Type} (ad : α → Option Nat) (eff : Store → α → Nat → Store)
    (s : PassState α) (i : Nat) (h : s.workers[i]? = some .ready) (hq : s.queue = []) :
    step ad eff s i = { s with workers := s.workers.set i .done } := by
  unfold step
  rw [h, hq]

theorem step_eq_ready_cons {α : Type} (ad : α → Option Nat) (eff : Store → α → Nat → Store)
    (s : PassState α) (i : Nat) (a : α) (rest : List α)
    (h : s.workers[i]? = some .ready) (hq : s.queue = a :: rest) :
    step ad eff s i
      = { s with queue := rest, workers := s.workers.set i (.working a) } := by
  unfold step
  rw [h, hq]

theorem step_eq_working_ok {α : Type} (ad : α → Option Nat) (eff : Store → α → Nat → Store)
    (s : PassState α) (i : Nat) (a : α) (c : Nat)
    (h : s.workers[i]? = some (.working a)) (hc : ad a = some c) :
    step ad eff s i
      = { s with workers := s.workers.set i .ready,
                 success := s.success ++ [a], store := eff s.store a c } := by
  have hm : step ad eff s i
      = match ad a with
        | some c' => { s with workers := s.workers.set i .ready,
                              success := s.success ++ [a], store := eff s.store a c' }
        | none => { s with workers := s.workers.set i .ready,
                           failed := s.failed ++ [a] } := by
    unfold step
    rw [h]
  rw [hm, hc]

theorem step_eq_working_fail {α : Type} (ad : α → Option Nat) (eff : Store → α → Nat → Store)
    (s : PassState α) (i : Nat) (a : α)
    (h : s.workers[i]? = some (.working a)) (hc : ad a = none) :
    step ad eff s i
      = { s with workers := s.workers.set i .ready, failed := s.failed ++ [a] } := by
  have hm : step ad eff s i
      = match ad a with
        | some c' => { s with workers := s.workers.set i .ready,
                              success := s.success ++ [a], store := eff s.store a c' }
        | none => { s with workers := s.workers.set i .ready,
                           failed := s.failed ++ [a] } := by
    unfold step
    rw [h]
  rw [hm, hc]

/-! ### In-flight-item bookkeeping -/

theorem heldM_cons {α : Type} (x : WStatus α) (xs : List (WStatus α)) :
    heldM (x :: xs) = itemsOfM x + heldM xs := by
  simp [heldM]

/-- Updating worker `i` from status `w` to status `w'` exchanges their
held items in the pool's in-flight multiset. -/
theorem heldM_set {α : Type} (ws : List (WStatus α)) (i : Nat) (w w' : WStatus α)
    (h : ws[i]? = some w) :
    heldM (ws.set i w') + itemsOfM w = heldM ws + itemsOfM w' := by
  induction ws generalizing i with
  | nil => simp at h
  | cons x xs ih =>
    cases i with
    | zero =>
      simp only [List.getElem?_cons_zero, Option.some.injEq] at h
      subst h
      rw [List.set_cons_zero, heldM_cons, heldM_cons]
      abel
    | succ n =>
      simp only [List.getElem?_cons_succ] at h
      rw [List.set_cons_succ, heldM_cons, heldM_cons, add_assoc, ih n h, ← add_assoc]

theorem heldM_replicate_ready {α : Type} (n : Nat) :
    heldM (List.replicate n (WStatus.ready : WStatus α)) = 0 := by
  induction n with
  | zero => simp [heldM]
  | succ k ih => rw [List.replicate_succ, heldM_cons, ih]; simp [itemsOfM]

theorem heldM_eq_zero_of_allDone {α : Type} (ws : List (WStatus α)) (h : allDone ws) :
    heldM ws = 0 := by
  induction ws with
  | nil => simp [heldM]
  | cons x xs ih =>
    rw [heldM_cons, h x (by simp), ih fun w hw => h w (List.mem_cons_of_mem _ hw)]
    simp [itemsOfM]

/-! ### Pass invariants -/

/-- Conservation invariant of a pass: the recorded successes and
failures, the items held by in-flight workers, and the items still
queued always form, together, the initial item multiset. -/
def passInv {α : Type} (items : List α) (s : PassState α) : Prop :=
  (↑s.success + ↑s.failed + heldM s.workers + ↑s.queue : Multiset α) = ↑items

theorem step_passInv {α : Type} (ad : α → Option Nat) (eff : Store → α → Nat → Store)
    (items : List α) (s : PassState α) (i : Nat) (h : passInv items s) :
    passInv items (step ad eff s i) := by
  cases hw : s.workers[i]? with
  | none => rwa [step_eq_of_none ad eff s i hw]
  | some w =>
    cases w with
    | done => rwa [step_eq_of_done ad eff s i hw]
    | ready =>
      cases hq : s.queue with
      | nil =>
        rw [step_eq_ready_nil ad eff s i hw hq]
        unfold passInv at h ⊢
        have hset := heldM_set s.workers i .ready .done hw
        simp only [itemsOfM, add_zero] at hset
        simpa [hset] using h
      | cons a rest =>
        rw [step_eq_ready_cons ad eff s i a rest hw hq]
        unfold passInv at h ⊢
        have hset := heldM_set s.workers i .ready (.working a) hw
        simp only [itemsOfM, add_zero] at hset
        rw [hq] at h
        rw [show (↑(a :: rest) : Multiset α) = {a} + ↑rest from by
          rw [← Multiset.cons_coe, ← Multiset.singleton_add]] at h
        rw [hset, ← h]
        abel
    | working a =>
      cases hc : ad a with
      | some c =>
        rw [step_eq_working_ok ad eff s i a c hw hc]
        unfold passInv at h ⊢
        have hset := heldM_set s.workers i (.working a) .ready hw
        simp only [itemsOfM, add_zero] at hset
        rw [← hset] at h
        rw [show (↑(s.success ++ [a]) : Multiset α) = ↑s.success + {a} from rfl, ← h]
        abel
      | none =>
        rw [step_eq_working_fail ad eff s i a hw hc]
        unfold passInv at h ⊢
        have hset := heldM_set s.workers i (.working a) .ready hw
        simp only [itemsOfM, add_zero] at hset
        rw [← hset] at h
        rw [show (↑(s.failed ++ [a]) : Multiset α) = ↑s.failed + {a} from rfl, ← h]
        abel

theorem runPass_passInv {α : Type} (ad : α → Option Nat) (eff : Store → α → Nat → Store)
    (items : List α) (s : PassState α) (sched : List Nat) (h : passInv items s) :
    passInv items (runPass ad eff s sched) := by
  induction sched generalizing s with
  | nil => exact h
  | cons i tl ih => exact ih (step ad eff s i) (step_passInv ad eff items s i h)

theorem initPass_passInv {α : Type} (items : List α) (maxConcurrent : Nat) (st : Store) :
    passInv items (initPass items maxConcurrent st) := by
  unfold passInv initPass
  simp [heldM_replicate_ready]

/-- A worker only exits a pass on seeing the queue empty, and the queue
never grows, so a state in which every worker has exited has an empty
queue (provided the state ever had a worker, or started with an empty
queue). -/
def queueEmptyOnDone {α : Type} (s : PassState α) : Prop :=
  allDone s.workers → s.queue = []

theorem step_queueEmptyOnDone {α : Type} (ad : α → Option Nat)
    (eff : Store → α → Nat → Store) (s : PassState α) (i : Nat)
    (h : queueEmptyOnDone s) : queueEmptyOnDone (step ad eff s i) := by
  have notDone : ∀ (w' : WStatus α), s.workers[i]? ≠ none → w' ≠ .done →
      allDone (s.workers.set i w') → False := by
    intro w' hne hwd hall
    obtain ⟨hlt, -⟩ := List.getElem?_eq_some.mp (Option.ne_none_iff_exists'.mp hne).choose_spec
    have hlt2 : i < (s.workers.set i w').length := by simpa using hlt
    have hval : (s.workers.set i w').get ⟨i, hlt2⟩ = w' := by
      rw [List.get_eq_getElem]
      exact List.getElem_set_self hlt2
    exact hwd (hval ▸ hall _ (List.get_mem _ _ hlt2))
  cases hw : s.workers[i]? with
  | none => rwa [step_eq_of_none ad eff s i hw]
  | some w =>
    cases w with
    | done => rwa [step_eq_of_done ad eff s i hw]
    | ready =>
      cases hq : s.queue with
      | nil =>
        rw [step_eq_ready_nil ad eff s i hw hq]
        intro _
        exact hq
      | cons a rest =>
        rw [step_eq_ready_cons ad eff s i a rest hw hq]
        intro hall
        exact absurd hall (fun hall => notDone (.working a) (by simp [hw]) (by simp) hall)
    | working a =>
      cases hc : ad a with
      | some c =>
        rw [step_eq_working_ok ad eff s i a c hw hc]
        intro hall
        exact absurd hall (fun hall => notDone .ready (by simp [hw]) (by simp) hall)
      | none =>
        rw [step_eq_working_fail ad eff s i a hw hc]
        intro hall
        exact absurd hall (fun hall => notDone .ready (by simp [hw]) (by simp) hall)

theorem runPass_queueEmptyOnDone {α : Type} (ad : α → Option Nat)
    (eff : Store → α → Nat → Store) (s : PassState α) (sched : List Nat)
    (h : queueEmptyOnDone s) : queueEmptyOnDone (runPass ad eff s sched) := by
  induction sched generalizing s with
  | nil => exact h
  | cons i tl ih => exact ih (step ad eff s i) (step_queueEmptyOnDone ad eff s i h)

theorem initPass_queueEmptyOnDone {α : Type} (items : List α) (maxConcurrent : Nat)
    (st : Store) (hmc : 1 ≤ maxConcurrent) :
    queueEmptyOnDone (initPass items maxConcurrent st) := by
  intro hall
  cases hitems : items with
  | nil => rfl
  | cons a tl =>
    exfalso
    have hmem : (WStatus.ready : WStatus α)
        ∈ List.replicate (Nat.min items.length maxConcurrent) WStatus.ready := by
      refine List.mem_replicate.mpr ⟨?_, rfl⟩
      simp [hitems]
      omega
    exact absurd (hall _ hmem) (by simp)

/-- C1: for every pass over a queue built from `items`, run by a pool of
`min(items.length, maxConcurrent)` workers under an arbitrary schedule,
once every worker has exited (the pool has joined) the result set holds
exactly one terminal record per initial item: the recorded successes and
failures together are a permutation of `items` — no item is recorded
twice, none is dropped — and in particular
`success.length + failed.length = items.length`. -/
theorem pass_exactly_once {α : Type} (items : List α) (maxConcurrent : Nat)
    (adapter : α → Option Nat) (eff : Store → α → Nat → Store) (st : Store)
    (sched : List Nat) (hmc : 1 ≤ maxConcurrent)
    (hjoin : allDone (runPass adapter eff (initPass items maxConcurrent st) sched).workers) :
    (runPass adapter eff (initPass items maxConcurrent st) sched).success.length
        + (runPass adapter eff (initPass items maxConcurrent st) sched).failed.length
      = items.length
    ∧ ((runPass adapter eff (initPass items maxConcurrent st) sched).success
        ++ (runPass adapter eff (initPass items maxConcurrent st) sched).failed).Perm
        items := by
  have hinv : passInv items (runPass adapter eff (initPass items maxConcurrent st) sched) :=
    runPass_passInv adapter eff items _ sched (initPass_passInv items maxConcurrent st)
  have hq : (runPass adapter eff (initPass items maxConcurrent st) sched).queue = [] :=
    runPass_queueEmptyOnDone adapter eff _ sched
      (initPass_queueEmptyOnDone items maxConcurrent st hmc) hjoin
  have hheld : heldM (runPass adapter eff (initPass items maxConcurrent st) sched).workers = 0 :=
    heldM_eq_zero_of_allDone _ hjoin
  unfold passInv at hinv
  rw [hq, hheld] at hinv
  simp only [add_zero, Multiset.coe_nil] at hinv
  have hperm : ((runPass adapter eff (initPass items maxConcurrent st) sched).success
      ++ (runPass adapter eff (initPass items maxConcurrent st) sched).failed).Perm items := by
    rw [← Multiset.coe_eq_coe]
    exact hinv
  refine ⟨?_, hperm⟩
  have := hperm.length_eq
  simpa using this

/-- Witness for C1: two items, `maxConcurrent = 3`, a schedule under
which worker 0 succeeds on item 0 and worker 1 fails on item 1, and both
workers then exit. -/
theorem pass_exactly_once_witness :
    (1 ≤ 3 ∧ allDone (runPass adWitness effId (initPass [0, 1] 3 stEmpty)
        [0, 0, 1, 1, 0, 1]).workers)
    ∧ (runPass adWitness effId (initPass [0, 1] 3 stEmpty)
          [0, 0, 1, 1, 0, 1]).success.length
        + (runPass adWitness effId (initPass [0, 1] 3 stEmpty)
          [0, 0, 1, 1, 0, 1]).failed.length = 2 :=
  ⟨⟨by decide, by decide⟩,
    (pass_exactly_once [0, 1] 3 adWitness effId stEmpty [0, 0, 1, 1, 0, 1]
      (by decide) (by decide)).1⟩

/-- C7: the pool spawns exactly `min(itemCount, maxConcurrent)` workers
against the single shared queue and result accumulator (index.js line
425 / part_001 line 371); with 2 items and `maxConcurrent = 3`, exactly
2 workers are spawned; and the pass is complete exactly when every
spawned worker has exited (`Promise.all`, index.js line 428). -/
theorem pool_spawns_min_workers :
    (∀ (α : Type) (items : List α) (maxConcurrent : Nat) (st : Store),
      (initPass items maxConcurrent st).workers.length
        = Nat.min items.length maxConcurrent)
    ∧ (initPass (α := Nat) [10, 20] 3 stEmpty).workers.length = 2
    ∧ ∀ (α : Type) (s : PassState α),
        allDone s.workers ↔ ∀ w ∈ s.workers, w = WStatus.done := by
  exact ⟨fun α items maxC st => by simp [initPass], rfl, fun α s => Iff.rfl⟩

/-! ### Retry-loop lemmas -/

/-- The loop performs at most `fuel` adapter invocations. -/
theorem retryGo_count_le {σ : Type} (att : Nat → Except JsError σ) :
    ∀ (fuel k : Nat), (retryGo att k fuel).2 ≤ fuel
  | 0, _ => by simp [retryGo]
  | 1, k => by
      cases h : att k with
      | ok g => simp [retryGo, h]
      | error e => simp [retryGo, h]
  | n + 2, k => by
      cases h : att k with
      | ok g => simp [retryGo, h]
      | error e =>
          have := retryGo_count_le att (n + 1) (k + 1)
          simp only [retryGo, h]
          omega

/-- A failure result means every allotted attempt was made and failed,
and the reported reason classifies the error of the last attempt,
attempt `k + fuel - 1`. -/
theorem retryGo_failed_last {σ : Type} (att : Nat → Except JsError σ) :
    ∀ (fuel k : Nat) (r : String), 1 ≤ fuel →
      (retryGo att k fuel).1 = .failed r →
      ∃ e, att (k + fuel - 1) = .error e ∧ r = classifyError e
        ∧ (retryGo att k fuel).2 = fuel
  | 0, _, _, hf, _ => by omega
  | 1, k, r, _, hr => by
      cases h : att k with
      | ok g => rw [show retryGo att k 1 = (.ok g, 1) from by simp [retryGo, h]] at hr; simp at hr
      | error e =>
          rw [show retryGo att k 1 = (.failed (classifyError e), 1) from by
            simp [retryGo, h]] at hr ⊢
          exact ⟨e, by simpa using h, by simpa using hr.symm, rfl⟩
  | n + 2, k, r, _, hr => by
      cases h : att k with
      | ok g =>
          rw [show retryGo att k (n + 2) = (.ok g, 1) from by simp [retryGo, h]] at hr
          simp at hr
      | error e =>
          have hstep : retryGo att k (n + 2)
              = ((retryGo att (k + 1) (n + 1)).1, (retryGo att (k + 1) (n + 1)).2 + 1) := by
            simp [retryGo, h]
          rw [hstep] at hr
          obtain ⟨e', he', hre', hcnt⟩ :=
            retryGo_failed_last att (n + 1) (k + 1) r (by omega) hr
          refine ⟨e', by rw [show k + (n + 2) - 1 = k + 1 + (n + 1) - 1 from by omega]; exact he',
            hre', ?_⟩
          rw [hstep, hcnt]

/-- C3: for every item, the retry loop of `compressImageWorker` performs
at most `maxRetries + 1` adapter invocations; with `maxRetries = 0`
exactly one attempt is made; and a terminal failure is produced only
after all `maxRetries + 1` attempts failed, carrying the classified
reason of the last attempt (attempt index `maxRetries`) alone. -/
theorem retry_policy_attempt_bound {σ : Type} (att : Nat → Except JsError σ)
    (maxRetries : Nat) :
    (compressImageWorker att maxRetries).2 ≤ maxRetries + 1
    ∧ (compressImageWorker att 0).2 = 1
    ∧ ∀ r, (compressImageWorker att maxRetries).1 = .failed r →
        ∃ e, att maxRetries = .error e ∧ r = classifyError e
          ∧ (compressImageWorker att maxRetries).2 = maxRetries + 1 := by
  refine ⟨retryGo_count_le att (maxRetries + 1) 0, ?_, ?_⟩
  · unfold compressImageWorker
    cases h : att 0 with
    | ok g => simp [retryGo, h]
    | error e => simp [retryGo, h]
  · intro r hr
    have := retryGo_failed_last att (maxRetries + 1) 0 r (by omega) hr
    simpa using this

/-- Witness for C3 at `maxRetries = 2` with an adapter that always fails
with a no-response error: the loop reports the classified reason of the
last (third) attempt and made exactly 3 invocations. -/
theorem retry_policy_attempt_bound_witness :
    ∃ e, attAllFail 2 = .error e ∧ "No response from server" = classifyError e
      ∧ (compressImageWorker attAllFail 2).2 = 2 + 1 :=
  (retry_policy_attempt_bound attAllFail 2).2.2 "No response from server" (by decide)

/-! ### Recovery-mode output placement (C2) -/

/-- C2: in a recovery pass under the shipped configuration
(`SOURCE_ROOT = __dirname/static`, `OUTPUT_ROOT =
__dirname/compressed_results`, `SAVE_FAILED_TO = __dirname/failed_images`,
`PRESERVE_DIR_STRUCTURE = true`), the output location computed for a
quarantined item `failed_images/name` is `failed_images/name` itself —
`path.relative(static, failed_images)` is `../failed_images`, which
`path.join` resolves right back into the holding area, not under the
output root.  Consequently a successful recovery writes the artifact
over the quarantined copy and the retry-mode delete then removes it:
afterwards the item's path maps to nothing, and every path under the
configured output root is exactly as it was before — no artifact exists
inside the output root, contradicting the specified behavior. -/
theorem retry_success_misplaces_and_loses_artifact (base : List String)
    (name : String) (st : Store) (c : Nat) (hname : name ≠ "..") :
    outputPathFor (sourceRootC base) (outputRootC base) (failedRootC base ++ [name])
        = failedRootC base ++ [name]
    ∧ retrySuccessEffect base st (failedRootC base ++ [name]) c
        (failedRootC base ++ [name]) = none
    ∧ ∀ suffix : List String,
        retrySuccessEffect base st (failedRootC base ++ [name]) c
          (outputRootC base ++ suffix) = st (outputRootC base ++ suffix) := by
  have hop := outputPathFor_retry base name hname
  refine ⟨hop, ?_, ?_⟩
  · unfold retrySuccessEffect storeDelete
    simp
  · intro suffix
    have hne : outputRootC base ++ suffix ≠ failedRootC base ++ [name] := by
      intro h
      unfold outputRootC failedRootC at h
      rw [List.append_assoc, List.append_assoc] at h
      have := (append_left_cancel_iff base _ _).mp h
      simp at this
    unfold retrySuccessEffect storeDelete storeWrite
    rw [hop]
    simp [hne]

/-- Witness for C2: the quarantined file `failed_images/foo.png`, whose
successful recovery leaves no file at its own path (and, by the theorem,
nothing new under the output root). -/
theorem retry_success_misplaces_witness :
    ("foo.png" ≠ "..")
    ∧ retrySuccessEffect [] stEmpty (failedRootC [] ++ ["foo.png"]) 3
        (failedRootC [] ++ ["foo.png"]) = none :=
  ⟨by decide,
    (retry_success_misplaces_and_loses_artifact [] "foo.png" stEmpty 3 (by decide)).2.1⟩

/-! ### Quarantine commit (C4) -/

/-- C4 counterexample: the holding area already contains
`failed_images/a.png` (content 7) when the pass's failure record for
`static/a.png` (content 5) is committed.  The claim's "skipped if
already present" requires the pre-existing content 7 to survive; the
code's unconditional `copyFileSync` replaces it with 5. -/
theorem quarantine_commit_overwrites_existing :
    commitFailed (failedRootC []) stC4 [["static", "a.png"]]
        ["failed_images", "a.png"] = some 5
    ∧ commitFailed (failedRootC []) stC4 [["static", "a.png"]]
        ["failed_images", "a.png"] ≠ some 7 := by
  constructor <;> decide

/-- C4 (amended): at the end of a normal pass every failure is copied
into the holding area under its base name only (flat), unconditionally
overwriting any file already present there, so the last failure sharing
a base name wins; paths outside the holding area's top level are
untouched.  `hsrc`: every failed source file exists; `hdir`: no failed
source file sits directly in the holding area itself. -/
theorem quarantine_commit_flat_last_wins (fr : List String) (st : Store)
    (items : List (List String))
    (hsrc : ∀ fp ∈ items, st fp ≠ none)
    (hdir : ∀ fp ∈ items, dirnameSeg fp ≠ fr) :
    (∀ b : String, commitFailed fr st items (fr ++ [b])
        = match (items.filter (fun fp => decide (basenameSeg fp = b))).getLast? with
          | none => st (fr ++ [b])
          | some src => st src)
    ∧ ∀ q : List String, dirnameSeg q ≠ fr → commitFailed fr st items q = st q := by
  induction items using List.reverseRecOn with
  | nil => exact ⟨fun b => by simp [commitFailed], fun q _ => by simp [commitFailed]⟩
  | append_singleton l fp ih =>
    have ihl := ih (fun x hx => hsrc x (by simp [hx])) (fun x hx => hdir x (by simp [hx]))
    have hfp_dir : dirnameSeg fp ≠ fr := hdir fp (by simp)
    obtain ⟨v, hv⟩ : ∃ v, st fp = some v :=
      Option.ne_none_iff_exists'.mp (hsrc fp (by simp))
    have hunf : commitFailed fr st (l ++ [fp])
        = storeCopy (commitFailed fr st l) fp (fr ++ [basenameSeg fp]) := by
      unfold commitFailed
      rw [List.foldl_append]
      rfl
    have hprev : commitFailed fr st l fp = st fp := ihl.2 fp hfp_dir
    have hcopy : storeCopy (commitFailed fr st l) fp (fr ++ [basenameSeg fp])
        = storeWrite (commitFailed fr st l) (fr ++ [basenameSeg fp]) v := by
      unfold storeCopy
      rw [hprev, hv]
    constructor
    · intro b
      rw [hunf, hcopy, List.filter_append]
      by_cases hb : basenameSeg fp = b
      · rw [show List.filter (fun fp' => decide (basenameSeg fp' = b)) [fp] = [fp] from by
          simp [hb]]
        rw [List.getLast?_concat]
        unfold storeWrite
        rw [if_pos (by rw [hb])]
        exact hv.symm
      · rw [show List.filter (fun fp' => decide (basenameSeg fp' = b)) [fp] = [] from by
          simp [hb]]
        rw [List.append_nil]
        unfold storeWrite
        rw [if_neg (by
          intro h
          have := (append_left_cancel_iff fr _ _).mp h
          simp at this
          exact hb this.symm)]
        exact ihl.1 b
    · intro q hq
      rw [hunf, hcopy]
      unfold storeWrite
      rw [if_neg (by
        intro h
        apply hq
        rw [h]
        simp [dirnameSeg])]
      exact ihl.2 q hq

/-- Witness for C4 (amended) with two failures sharing base name
`a.png`: the committed content is that of the later failure. -/
theorem quarantine_commit_flat_last_wins_witness :
    (∀ fp ∈ itemsC4w, stC4w fp ≠ none)
    ∧ commitFailed ["failed_images"] stC4w itemsC4w (["failed_images"] ++ ["a.png"])
        = match (itemsC4w.filter
            (fun fp => decide (basenameSeg fp = "a.png"))).getLast? with
          | none => stC4w (["failed_images"] ++ ["a.png"])
          | some src => stC4w src :=
  ⟨by decide,
    (quarantine_commit_flat_last_wins ["failed_images"] stC4w itemsC4w
      (by decide) (by decide)).1 "a.png"⟩

/-! ### Entry-operation guards (C5, C6, C9) -/

/-- C5: when the source root does not exist, the full-pass entry
operation produces no result set at all, whatever the scheduler,
adapter or filesystem would have done — so it fails before any item is
processed.  The CLI's `compressFolder` reports the setup error and
returns without a result set (index.js line 406); the plugin's
`compressFolder` throws the setup error `源目录不存在: ...` to its caller
(part_001 lines 338-340). -/
theorem missing_source_root_setup_error (base parent : List String) (rootName : String)
    (maxConcurrent : Nat) (adapter : List String → Option Nat) (st : Store)
    (sched : List Nat) :
    compressFolderCli base none maxConcurrent adapter st sched = none
    ∧ compressFolderPlugin parent rootName none maxConcurrent adapter st sched
        = Except.error ("源目录不存在: " ++ String.intercalate "/" (parent ++ [rootName])) :=
  ⟨rfl, rfl⟩

/-- C6: recovery mode with a missing holding directory, or with a
holding directory containing no supported entries, reports zero items,
raises no error, and returns the filesystem untouched. -/
theorem recovery_empty_noop (base : List String) (maxConcurrent : Nat)
    (adapter : List String → Option Nat) (st : Store) (sched : List Nat) :
    retryFailedFolder base none maxConcurrent adapter st sched = (⟨0, 0, 0⟩, st)
    ∧ ∀ entries, entries.filter (fun f => isSupportedRetry f) = [] →
        retryFailedFolder base (some entries) maxConcurrent adapter st sched
          = (⟨0, 0, 0⟩, st) := by
  refine ⟨rfl, ?_⟩
  intro entries h
  simp [retryFailedFolder, h]

/-- Witness for C6: a holding directory containing only `notes.txt`. -/
theorem recovery_empty_noop_witness :
    retryFailedFolder [] (some ["notes.txt"]) 3 adNone stEmpty []
      = (⟨0, 0, 0⟩, stEmpty) :=
  (recovery_empty_noop [] 3 adNone stEmpty []).2 ["notes.txt"] (by decide)

/-- C9: without `--retry-failed` the program runs the full pass and
then, in the same invocation, the recovery pass; with `--retry-failed`
only the recovery pass runs — no full-pass result is produced and the
run is insensitive to the source tree (two worlds agreeing on the
holding listing and the filesystem produce identical results, whatever
their source trees). -/
theorem main_mode_pass_sequencing :
    mainSequence true = [PassKind.recovery]
    ∧ mainSequence false = [PassKind.full, PassKind.recovery]
    ∧ (∀ (base : List String) (w : CliWorld) (maxConcurrent : Nat)
        (adapter : List String → Option Nat) (schedFull schedRetry : List Nat),
        (runMainCli true base w maxConcurrent adapter schedFull schedRetry).1 = none)
    ∧ ∀ (base : List String) (w w' : CliWorld) (maxConcurrent : Nat)
        (adapter : List String → Option Nat) (schedFull schedRetry : List Nat),
        w.holdingEntries = w'.holdingEntries → w.store = w'.store →
        runMainCli true base w maxConcurrent adapter schedFull schedRetry
          = runMainCli true base w' maxConcurrent adapter schedFull schedRetry := by
  refine ⟨rfl, rfl, fun base w maxC ad sf sr => rfl, ?_⟩
  intro base w w' maxC ad sf sr h1 h2
  unfold runMainCli
  rw [if_pos rfl, if_pos rfl, h1, h2]

/-- Witness for C9: two worlds differing only in the presence of the
source tree behave identically in retry-only mode. -/
theorem main_mode_pass_sequencing_witness :
    runMainCli true [] worldWithSource 3 adNone [] []
      = runMainCli true [] worldNoSource 3 adNone [] [] :=
  main_mode_pass_sequencing.2.2.2 [] worldWithSource worldNoSource 3 adNone [] [] rfl rfl

end TinyPNG
